import Mathlib

/-!
Verification development for the FHF PDF data extractor
(`Extractor.py` of the MO_ethics_scrape_and_compile repository).

Python strings are modelled as `List Char`; monetary amounts (Python floats)
are modelled as exact rationals `ℚ` carrying the decimal value of the parsed
numeral; `datetime` values are modelled as naturals (an encoded calendar date,
or the `now` parameter standing for `datetime.now()`).  Each definition notes
the source lines it embeds.
-/

set_option maxRecDepth 4096

/-- Python whitespace characters recognised by `str.strip` / regex `\s`
(ASCII range, which is all that occurs in the extracted page text). -/
def isWsCh (c : Char) : Bool :=
  c = ' ' || c = '\t' || c = '\n' || c = '\r' || c = '\x0b' || c = '\x0c'

/-- Characters matched by the regex class `[\d,]`. -/
def isDigitComma (c : Char) : Bool :=
  c.isDigit || c = ','

/-- Characters matched by the regex class `[\d.]`. -/
def isDigitDot (c : Char) : Bool :=
  c.isDigit || c = '.'

/-- Characters matched by the regex class `[A-Za-z\s]`. -/
def isAlphaWs (c : Char) : Bool :=
  c.isAlpha || isWsCh c

/-- Python `str.strip()`: drop whitespace from both ends. -/
def trimL (l : List Char) : List Char :=
  ((l.dropWhile isWsCh).reverse.dropWhile isWsCh).reverse

/-- Python `str.startswith(p)` on character lists. -/
def listStartsWith : List Char → List Char → Bool
  | [], _ => true
  | _ :: _, [] => false
  | p :: ps, c :: cs => p = c && listStartsWith ps cs

/-- Python `pat in s` (substring containment) on character lists. -/
def listContains (pat : List Char) : List Char → Bool
  | [] => listStartsWith pat []
  | c :: cs => listStartsWith pat (c :: cs) || listContains pat cs

/-- Python `text.split('\n')` (`Extractor.py` lines 195 and 302). -/
def splitNl : List Char → List (List Char)
  | [] => [[]]
  | c :: cs =>
    match splitNl cs with
    | [] => [[c]]
    | h :: t => if c = '\n' then [] :: h :: t else (c :: h) :: t

/-- Fuelled worker for `splitOnL`. -/
def splitOnAux (sep : List Char) : Nat → List Char → List (List Char)
  | _, [] => [[]]
  | 0, l => [l]
  | fuel + 1, c :: cs =>
    if listStartsWith sep (c :: cs) then
      [] :: splitOnAux sep fuel ((c :: cs).drop sep.length)
    else
      match splitOnAux sep fuel cs with
      | [] => [[c]]
      | h :: t => (c :: h) :: t

/-- Python `s.split(sep)` for a fixed non-empty separator
(used for `' -- '` at line 231 and `'/'` in the strptime model). -/
def splitOnL (sep l : List Char) : List (List Char) :=
  splitOnAux sep l.length l

/-- Numeric value of a digit string. -/
def digitsToNat (l : List Char) : Nat :=
  l.foldl (fun a c => a * 10 + (c.toNat - ('0').toNat)) 0

/-!
### Regex models

Each `search`/`match` use in the source is modelled by a dedicated function.
Python `re.search` returns the leftmost match, trying alternatives at each
start position in regex order (greedy quantifiers first, with backtracking);
the models below implement exactly that discipline for the concrete patterns
of the source.
-/

/-- One or two digits at the head, greedy order (two first), with the
remainder of the line after each alternative.  Models `\d{1,2}` with
backtracking inside the date pattern. -/
def takeDigits12 : List Char → List (List Char × List Char)
  | [] => []
  | [a] => if a.isDigit then [([a], [])] else []
  | a :: b :: rest =>
    if a.isDigit && b.isDigit then [([a, b], rest), ([a], b :: rest)]
    else if a.isDigit then [([a], b :: rest)] else []

/-- Exactly four digits at the head.  Models `\d{4}`. -/
def take4Digits : List Char → Option (List Char × List Char)
  | a :: b :: c :: d :: r =>
    if a.isDigit && b.isDigit && c.isDigit && d.isDigit then some ([a, b, c, d], r)
    else none
  | _ => none

/-- Attempt of the pattern `(\d{1,2}/\d{1,2}/\d{4})` anchored at this
position, returning the captured text.  Alternatives are tried in the
greedy order Python uses. -/
def tryDateAt (l : List Char) : Option (List Char) :=
  (takeDigits12 l).findSome? fun mr =>
    match mr.2 with
    | '/' :: r2 =>
      (takeDigits12 r2).findSome? fun dr =>
        match dr.2 with
        | '/' :: r4 =>
          match take4Digits r4 with
          | some yr => some (mr.1 ++ '/' :: (dr.1 ++ '/' :: yr.1))
          | none => none
        | _ => none
    | _ => none

/-- `re.search(r'(\d{1,2}/\d{1,2}/\d{4})', line)` — leftmost match, group 1
(`Extractor.py` lines 92, 237-238, 342-343). -/
def searchDateL : List Char → Option (List Char)
  | [] => none
  | c :: cs => tryDateAt (c :: cs) <|> searchDateL cs

/-- The capture group `([\d,]+\.?\d*)` anchored at this position:
a maximal non-empty run of digits/commas, then optionally a dot followed by a
maximal run of digits.  All three parts are greedy and nothing after them can
fail, so no backtracking arises once the run is non-empty. -/
def tryNumGroup (l : List Char) : Option (List Char) :=
  if (l.takeWhile isDigitComma).isEmpty then none
  else
    match l.drop (l.takeWhile isDigitComma).length with
    | '.' :: r2 =>
      some (l.takeWhile isDigitComma ++ '.' :: r2.takeWhile Char.isDigit)
    | _ => some (l.takeWhile isDigitComma)

/-- Attempt of `\$?\s*([\d,]+\.?\d*)` at this position, returning group 1.
`\$?` greedily consumes a dollar sign when present, `\s*` then greedily
consumes whitespace; a shorter whitespace consumption leaves a whitespace
character at the head of `[\d,]+` and fails, so only the maximal consumption
can succeed, and when no dollar sign is consumed at a `'$'` head the group
would have to start at `'$'` and fails.  Hence the attempt reduces to
skipping one optional `'$'` and the following whitespace run. -/
def tryAmountAt (l : List Char) : Option (List Char) :=
  match l with
  | c :: rest =>
    if c = '$' then tryNumGroup (rest.dropWhile isWsCh)
    else tryNumGroup ((c :: rest).dropWhile isWsCh)
  | [] => tryNumGroup (([] : List Char).dropWhile isWsCh)

/-- `re.search(r'\$?\s*([\d,]+\.?\d*)', line)` — leftmost match, group 1
(`Extractor.py` lines 243 and 250). -/
def searchAmountL : List Char → Option (List Char)
  | [] => none
  | c :: cs => tryAmountAt (c :: cs) <|> searchAmountL cs

/-- `re.search(r'([\d,]+\.?\d*)', line)` — leftmost match, group 1
(`Extractor.py` line 349, expenditures date branch). -/
def searchAmountEL : List Char → Option (List Char)
  | [] => none
  | c :: cs => tryNumGroup (c :: cs) <|> searchAmountEL cs

/-- The street-suffix alternation `(?:Dr|Rd|St|Ave|Lane|Circle|Court|Street)`. -/
def streetTokens : List (List Char) :=
  [("Dr").toList, ("Rd").toList, ("St").toList, ("Ave").toList,
   ("Lane").toList, ("Circle").toList, ("Court").toList, ("Street").toList]

/-- `re.match(r'\d+.*(?:Dr|Rd|St|Ave|Lane|Circle|Court|Street)', line)` as a
boolean (`Extractor.py` lines 220 and 325).  The anchored pattern succeeds
iff the line starts with a digit (taking `\d+` of length one) and some street
token occurs at a position at least 1 (reachable through `.*`). -/
def addressPat (l : List Char) : Bool :=
  match l with
  | [] => false
  | c :: rest => c.isDigit && streetTokens.any fun t => listContains t rest

/-- All suffixes obtained by consuming at least one whitespace character,
in greedy order.  Models `\s+` with backtracking. -/
def wsPlus : List Char → List (List Char)
  | [] => []
  | c :: cs => if isWsCh c then cs :: wsPlus cs else []

/-- All suffixes obtained by consuming at least one `[A-Za-z\s]` character.
Models `[A-Za-z\s]+` with backtracking. -/
def alphaWsPlus : List Char → List (List Char)
  | [] => []
  | c :: cs => if isAlphaWs c then cs :: alphaWsPlus cs else []

/-- Attempt of `[A-Za-z\s]+\s+[A-Z]{2}\s+\d{5}` anchored at this position
(existence only; the source uses the match as a boolean). -/
def cszAt (l : List Char) : Bool :=
  (alphaWsPlus l).any fun r1 =>
    (wsPlus r1).any fun r2 =>
      match r2 with
      | a :: b :: r3 =>
        a.isUpper && b.isUpper &&
          ((wsPlus r3).any fun r4 =>
            decide ((r4.take 5).length = 5) && (r4.take 5).all Char.isDigit)
      | _ => false

/-- `re.search(r'[A-Za-z\s]+\s+[A-Z]{2}\s+\d{5}', line)` as a boolean
(`Extractor.py` lines 225 and 330). -/
def cszPat : List Char → Bool
  | [] => cszAt []
  | c :: cs => cszAt (c :: cs) || cszPat cs

/-- `re.search(r'^([a-zA-Z\s]+)\s+([\d.]+)$', line)` with both capture groups
(`Extractor.py` lines 335-336; the anchors make this a full match).
Writing the line as `A ++ W ++ N` with `N` the maximal trailing run of
`[\d.]` characters and `W` the maximal whitespace run before it, a match
requires `N` and `W` non-empty and `A` all `[a-zA-Z\s]`; the greedy first
group captures `A ++ W` minus the final whitespace character (which `\s+`
consumes) and needs at least one character, group 2 is `N`. -/
def purposeAmountMatch (l : List Char) : Option (List Char × List Char) :=
  let r := l.reverse
  let n := r.takeWhile isDigitDot
  let r2 := r.drop n.length
  let w := r2.takeWhile isWsCh
  let a := r2.drop w.length
  if !n.isEmpty && !w.isEmpty && a.all isAlphaWs && decide (2 ≤ a.length + w.length) then
    some (a.reverse ++ (w.reverse).dropLast, n.reverse)
  else
    none

/-!
### AmountParser (`parse_amount`, `Extractor.py` lines 382-393)

Python `float()` is modelled on ordinary decimal literals: optional
surrounding whitespace, an optional sign, a mantissa made of digits with an
optional decimal point (at least one digit overall), and an optional
exponent part.  Special spellings (`inf`, `nan`, digit-group underscores)
do not occur in this data and are not modelled.  The value is the exact
decimal rational.
-/

/-- The exact rational `m · 10^net`, assembled with `mkRat` over `Nat`/`Int`
arithmetic only (the kernel cannot evaluate `Rat` multiplication or
division, so the decimal value is built directly). -/
def decToRat (m : Nat) (net : Int) : ℚ :=
  if 0 ≤ net then mkRat (Int.ofNat (m * 10 ^ net.toNat)) 1
  else mkRat (Int.ofNat m) (10 ^ (-net).toNat)

/-- Digits of an exponent with its sign: `\d+` anchored to the end. -/
def expDigitsCore (sgnNeg : Bool) (r : List Char) : Option Int :=
  let ds := r.takeWhile Char.isDigit
  if ds.isEmpty || !(r.drop ds.length).isEmpty then none
  else some (if sgnNeg then -(digitsToNat ds : Int) else (digitsToNat ds : Int))

/-- Exponent suffix `[eE][+-]?\d+` at the end of the literal (or nothing),
as a signed power of ten. -/
def expTailVal (l : List Char) : Option Int :=
  match l with
  | [] => some 0
  | 'e' :: r =>
    (match r with
     | '+' :: r2 => expDigitsCore false r2
     | '-' :: r2 => expDigitsCore true r2
     | r2 => expDigitsCore false r2)
  | 'E' :: r =>
    (match r with
     | '+' :: r2 => expDigitsCore false r2
     | '-' :: r2 => expDigitsCore true r2
     | r2 => expDigitsCore false r2)
  | _ => none

/-- Unsigned mantissa `(\d+(\.\d*)?|\.\d+)` followed by an optional exponent. -/
def floatMag (l : List Char) : Option ℚ :=
  let ip := l.takeWhile Char.isDigit
  match l.drop ip.length with
  | '.' :: r2 =>
    let fp := r2.takeWhile Char.isDigit
    if ip.isEmpty && fp.isEmpty then none
    else
      match expTailVal (r2.drop fp.length) with
      | some e => some (decToRat (digitsToNat (ip ++ fp)) (e - (fp.length : Int)))
      | none => none
  | r1 =>
    if ip.isEmpty then none
    else
      match expTailVal r1 with
      | some e => some (decToRat (digitsToNat ip) e)
      | none => none

/-- Python `float(s)`: strip whitespace, optional sign, mantissa, exponent;
`none` models a raised `ValueError`. -/
def floatOfStr (l : List Char) : Option ℚ :=
  match trimL l with
  | '+' :: r => floatMag r
  | '-' :: r => (floatMag r).map Neg.neg
  | r => floatMag r

/-- `re.sub(r'[,$]', '', s)` (`Extractor.py` line 388). -/
def cleanAmount (l : List Char) : List Char :=
  l.filter fun c => !(c = ',' || c = '$')

/-- `parse_amount` (`Extractor.py` lines 382-393): empty input returns `0.0`;
otherwise commas and dollar signs are removed and `float()` is attempted,
any failure yielding `0.0`. -/
def parse_amount (l : List Char) : ℚ :=
  if l.isEmpty then 0
  else
    match floatOfStr (cleanAmount l) with
    | some q => q
    | none => 0

/-!
### CoverPageParser pieces (`parse_cover_page`, `Extractor.py` lines 83-121)
-/

/-- The condition `'AMENDED' in text or 'AMENDING' in text`
(`Extractor.py` lines 113 and 119). -/
def amendedHit (t : List Char) : Bool :=
  listContains (("AMENDED").toList) t || listContains (("AMENDING").toList) t

/-- Report-type classification (`Extractor.py` lines 110-116). -/
def report_type (t : List Char) : List Char :=
  if listContains (("COMMITTEE QUARTERLY REPORT").toList) t then ("Quarterly").toList
  else if amendedHit t then ("Quarterly (Amended)").toList
  else ("Unknown").toList

/-- Amendment flag (`Extractor.py` line 119). -/
def is_amendment (t : List Char) : Bool :=
  amendedHit t

/-- Days per month, with the Gregorian leap rule used by `datetime`. -/
def daysInMonth (y m : Nat) : Nat :=
  if m = 2 then
    if y % 4 = 0 && (y % 100 ≠ 0 || y % 400 = 0) then 29 else 28
  else if m = 4 || m = 6 || m = 9 || m = 11 then 30
  else 31

/-- `datetime.strptime(s, '%m/%d/%Y')` on strings of the shape produced by
the date regex: three slash-separated digit groups (month and day of one or
two digits, year of up to four), valid only for a real calendar date with
year at least `datetime.MINYEAR = 1`.  Returns `(month, day, year)`. -/
def strptimeMDY (s : List Char) : Option (Nat × Nat × Nat) :=
  match splitOnL (("/").toList) s with
  | [ms, ds, ys] =>
    if !ms.isEmpty && ms.all Char.isDigit && decide (ms.length ≤ 2) &&
       !ds.isEmpty && ds.all Char.isDigit && decide (ds.length ≤ 2) &&
       !ys.isEmpty && ys.all Char.isDigit && decide (ys.length ≤ 4) then
      let m := digitsToNat ms
      let d := digitsToNat ds
      let y := digitsToNat ys
      if decide (1 ≤ m) && decide (m ≤ 12) && decide (1 ≤ d) &&
         decide (d ≤ daysInMonth y m) && decide (1 ≤ y) then
        some (m, d, y)
      else none
    else none
  | _ => none

/-- Injective encoding of a calendar date into the `Nat` model of `datetime`. -/
def encodeDate (mdy : Nat × Nat × Nat) : Nat :=
  mdy.2.2 * 10000 + mdy.1 * 100 + mdy.2.1

/-- File-date extraction (`Extractor.py` lines 91-99): the first date-shaped
substring is parsed with `strptime('%m/%d/%Y')`; on a missing match or a
`strptime` failure the result is `datetime.now()`, modelled by the `now`
parameter. -/
def parse_file_date (t : List Char) (now : Nat) : Nat :=
  match searchDateL t with
  | some g =>
    match strptimeMDY g with
    | some mdy => encodeDate mdy
    | none => now
  | none => now

/-!
### Line-item records and table parsers
(`parse_contributions_table` lines 190-284, `parse_expenditures_table`
lines 298-380)
-/

/-- A row of the `contributions` list built at lines 266-275. -/
structure ContributionRecord where
  contributor_name : List Char
  contributor_address : List Char
  date_received : List Char
  individual_amount : ℚ
  aggregate_amount : ℚ
  contribution_type : List Char
  employer : List Char
  occupation : List Char
deriving DecidableEq

/-- A row of the `expenditures` list built at lines 364-371. -/
structure ExpenditureRecord where
  expense_category : List Char
  amount : ℚ
  recipient_name : List Char
  recipient_address : List Char
  purpose : List Char
  date_paid : List Char
deriving DecidableEq

/-- The `contributor_data` dictionary of the contributions window scan
(name is carried separately; absent keys are `none`). -/
structure CState where
  address : Option (List Char) := none
  city_state : Option (List Char) := none
  employer : Option (List Char) := none
  occupation : Option (List Char) := none
  date : Option (List Char) := none
  amount : Option ℚ := none
deriving DecidableEq

/-- The `expense_data` dictionary of the expenditures window scan. -/
structure EState where
  address : Option (List Char) := none
  city_state : Option (List Char) := none
  purpose : Option (List Char) := none
  date : Option (List Char) := none
  amount : Option ℚ := none
deriving DecidableEq

def initC : CState := {}

def initE : EState := {}

/-- The `' -- '` employer/occupation separator (line 230). -/
def sepEmpOcc : List Char := (" -- ").toList

/-- Fallback for a positive amount on a neighbouring raw line
(`Extractor.py` lines 248-253): the line's amount match must parse to a
strictly positive value to be taken. -/
def fbTry (raw : List Char) : Option ℚ :=
  match searchAmountL raw with
  | some g => if 0 < parse_amount g then some (parse_amount g) else none
  | none => none

/-- One iteration of the contributions lookahead scan
(`Extractor.py` lines 216-255).  `raw` is `lines[j]`, `prevRaw`/`nextRaw`
are the raw (unstripped) neighbouring lines, `''` when out of range.
The four branches mirror the `if`/`elif` chain: street address, city/state/
zip, employer/occupation (all three only when not already captured), and
date — the date branch runs on every date-bearing line, overwriting `date`,
and overwriting `amount` whenever the same-line amount regex matches. -/
def stepC (st : CState) (raw prevRaw nextRaw : List Char) : CState :=
  if addressPat (trimL raw) && decide (st.address = none) then
    { st with address := some (trimL raw) }
  else if cszPat (trimL raw) && decide (st.city_state = none) then
    { st with city_state := some (trimL raw) }
  else if listContains sepEmpOcc (trimL raw) && decide (st.occupation = none) then
    if decide (2 ≤ (splitOnL sepEmpOcc (trimL raw)).length) then
      { st with employer := some (trimL ((splitOnL sepEmpOcc (trimL raw)).getD 0 [])),
                occupation := some (trimL ((splitOnL sepEmpOcc (trimL raw)).getD 1 [])) }
    else st
  else
    match searchDateL (trimL raw) with
    | some d =>
      match searchAmountL (trimL raw) with
      | some g => { st with date := some d, amount := some (parse_amount g) }
      | none =>
        match fbTry prevRaw with
        | some q => { st with date := some d, amount := some q }
        | none =>
          match fbTry nextRaw with
          | some q => { st with date := some d, amount := some q }
          | none => { st with date := some d }
    | none => st

/-- One iteration of the expenditures lookahead scan
(`Extractor.py` lines 321-353): street address and city/state/zip are
guarded, the purpose+amount branch overwrites both `purpose` and `amount`
on every matching line, and the date branch overwrites `date` and seeks a
same-line amount only when `amount` is still absent (no neighbouring-line
fallback exists here). -/
def stepE (st : EState) (raw : List Char) : EState :=
  if addressPat (trimL raw) && decide (st.address = none) then
    { st with address := some (trimL raw) }
  else if cszPat (trimL raw) && decide (st.city_state = none) then
    { st with city_state := some (trimL raw) }
  else
    match purposeAmountMatch (trimL raw) with
    | some pg =>
      { st with purpose := some (trimL pg.1), amount := some (parse_amount pg.2) }
    | none =>
      match searchDateL (trimL raw) with
      | some d =>
        if decide (st.amount = none) then
          match searchAmountEL (trimL raw) with
          | some g => { st with date := some d, amount := some (parse_amount g) }
          | none => { st with date := some d }
        else { st with date := some d }
      | none => st

/-- Candidate-header test of the contributions scan
(`Extractor.py` lines 203-209), applied to the stripped line. -/
def isCandidateC (l : List Char) : Bool :=
  !l.isEmpty &&
  !([("NAME:").toList, ("ADDRESS:").toList, ("CITY").toList, ("EMPLOYER:").toList,
     ("COMMITTEE:").toList, ("$").toList, ("MONETARY").toList, ("IN-KIND").toList].any
      fun p => listStartsWith p l) &&
  !listContains (("SUBTOTAL").toList) l &&
  !listContains (("TOTAL").toList) l &&
  decide (l.length < 100) && decide (2 < l.length)

/-- Candidate-header test of the expenditures scan
(`Extractor.py` lines 309-315). -/
def isCandidateE (l : List Char) : Bool :=
  !l.isEmpty &&
  !([("NAME:").toList, ("ADDRESS:").toList, ("CITY").toList, ("$").toList,
     ("PAID").toList, ("INCURRED").toList].any fun p => listStartsWith p l) &&
  !listContains (("SUBTOTAL").toList) l &&
  !listContains (("TOTAL").toList) l &&
  !listContains (("PURPOSE").toList) l &&
  decide (l.length < 100) && decide (2 < l.length)

/-- Contributions lookahead window (`j` from `i+1` while
`j < min(i + 10, len(lines))`, lines 215-255), folding `stepC` with the raw
neighbours `lines[j-1]` and `lines[j+1]` (or `''` out of range). -/
def scanC (lines : List (List Char)) (i : Nat) : CState :=
  (List.range' (i + 1) (min (i + 10) lines.length - (i + 1))).foldl
    (fun st j => stepC st (lines.getD j []) (lines.getD (j - 1) []) (lines.getD (j + 1) []))
    initC

/-- Expenditures lookahead window (`j < min(i + 15, len(lines))`,
lines 320-353). -/
def scanE (lines : List (List Char)) (i : Nat) : EState :=
  (List.range' (i + 1) (min (i + 15) lines.length - (i + 1))).foldl
    (fun st j => stepE st (lines.getD j []))
    initE

/-- Emission gate and record assembly of the contributions scan
(`Extractor.py` lines 257-275): a record is produced only when an amount was
captured and is strictly positive. -/
def emitC (name : List Char) (st : CState) : Option ContributionRecord :=
  match st.amount with
  | some a =>
    if 0 < a then
      some
        { contributor_name := name
          contributor_address :=
            st.address.getD [] ++
              (match st.city_state with
               | some cs => (", ").toList ++ cs
               | none => [])
          date_received := st.date.getD []
          individual_amount := a
          aggregate_amount := a
          contribution_type := ("Monetary").toList
          employer := st.employer.getD []
          occupation := st.occupation.getD [] }
    else none
  | none => none

/-- Emission gate and record assembly of the expenditures scan
(`Extractor.py` lines 355-371). -/
def emitE (vendor : List Char) (st : EState) : Option ExpenditureRecord :=
  match st.amount with
  | some a =>
    if 0 < a then
      some
        { expense_category := st.purpose.getD (("General").toList)
          amount := a
          recipient_name := vendor
          recipient_address :=
            st.address.getD [] ++
              (match st.city_state with
               | some cs => (", ").toList ++ cs
               | none => [])
          purpose := st.purpose.getD []
          date_paid := st.date.getD [] }
    else none
  | none => none

/-- Cursor position after one iteration of the outer contributions scan:
`i + 1` for a non-candidate line, otherwise the final value of the window
index `j`, namely `max (i+1) (min (i+10) len)` (lines 280-282). -/
def contribNext (lines : List (List Char)) (i : Nat) : Nat :=
  if isCandidateC (trimL (lines.getD i [])) then
    max (i + 1) (min (i + 10) lines.length)
  else i + 1

/-- Cursor position after one iteration of the outer expenditures scan
(lines 376-378). -/
def expNext (lines : List (List Char)) (i : Nat) : Nat :=
  if isCandidateE (trimL (lines.getD i [])) then
    max (i + 1) (min (i + 15) lines.length)
  else i + 1

/-- Fuelled outer loop of `parse_contributions_table`
(`Extractor.py` lines 198-282); the cursor strictly increases each
iteration, so fuel `lines.length` suffices (proved below). -/
def contribAux (lines : List (List Char)) : Nat → Nat → List ContributionRecord
  | 0, _ => []
  | fuel + 1, i =>
    if i < lines.length then
      if isCandidateC (trimL (lines.getD i [])) then
        (emitC (trimL (lines.getD i [])) (scanC lines i)).toList
          ++ contribAux lines fuel (contribNext lines i)
      else contribAux lines fuel (contribNext lines i)
    else []

/-- Fuelled outer loop of `parse_expenditures_table` (lines 304-378). -/
def expAux (lines : List (List Char)) : Nat → Nat → List ExpenditureRecord
  | 0, _ => []
  | fuel + 1, i =>
    if i < lines.length then
      if isCandidateE (trimL (lines.getD i [])) then
        (emitE (trimL (lines.getD i [])) (scanE lines i)).toList
          ++ expAux lines fuel (expNext lines i)
      else expAux lines fuel (expNext lines i)
    else []

/-- `parse_contributions_table` (`Extractor.py` lines 190-284). -/
def parse_contributions_table (text : List Char) : List ContributionRecord :=
  let lines := splitNl text
  contribAux lines lines.length 0

/-- `parse_expenditures_table` (`Extractor.py` lines 298-380). -/
def parse_expenditures_table (text : List Char) : List ExpenditureRecord :=
  let lines := splitNl text
  expAux lines lines.length 0

/-!
### Report assembly and amendment deduplication
(`extract_all_data` lines 19-50, `process_report_data` lines 395-432)

A `ReportData` is the dictionary produced by `extract_pdf_data` for one PDF
(cover-page fields plus the parsed summary and line items); reading and text
extraction being external I/O, the run is modelled as a function of the list
of successfully parsed `ReportData` values in file order, files that raised
being absent (lines 40-42).
-/

/-- The `summary` dictionary (`extract_summary_data` lines 123-177): each
metric is present only when one of its patterns matched;
`total_receipts_period` is read at line 408 with a default but never set. -/
structure SummaryFigures where
  money_on_hand_beginning : Option ℚ := none
  money_on_hand_ending : Option ℚ := none
  monetary_receipts_period : Option ℚ := none
  total_expenditures_period : Option ℚ := none
  total_receipts_period : Option ℚ := none
deriving DecidableEq

/-- The per-PDF `report_data` dictionary after `extract_pdf_data`
(lines 52-81), with `file_date` in the `Nat` datetime model. -/
structure ReportData where
  filename : List Char
  committee_name : List Char
  report_type : List Char
  period_from : List Char
  period_through : List Char
  file_date : Nat
  is_amendment : Bool
  summary : SummaryFigures
  contributions : List ContributionRecord
  expenditures : List ExpenditureRecord
deriving DecidableEq

/-- The amendment-deduplication key
`(report_type, period_from, period_through)` (line 36). -/
abbrev RKey := List Char × List Char × List Char

def keyOf (r : ReportData) : RKey :=
  (r.report_type, r.period_from, r.period_through)

/-- Dictionary lookup in the insertion-ordered model of `all_reports`. -/
def lookupR : List (RKey × ReportData) → RKey → Option ReportData
  | [], _ => none
  | kv :: t, k => if kv.1 = k then some kv.2 else lookupR t k

/-- Dictionary update of an existing key, keeping its position. -/
def updateR : List (RKey × ReportData) → RKey → ReportData → List (RKey × ReportData)
  | [], _, _ => []
  | kv :: t, k, rd => if kv.1 = k then (k, rd) :: t else kv :: updateR t k rd

/-- One iteration of the `all_reports` loop (lines 36-38): assign when the
key is absent or the incoming file date is strictly later. -/
def insertR (m : List (RKey × ReportData)) (rd : ReportData) : List (RKey × ReportData) :=
  match lookupR m (keyOf rd) with
  | none => m ++ [(keyOf rd, rd)]
  | some old => if old.file_date < rd.file_date then updateR m (keyOf rd) rd else m

/-- The `all_reports` dictionary after processing every PDF (lines 26-42),
as an insertion-ordered association list. -/
def allReports (rs : List ReportData) : List (RKey × ReportData) :=
  rs.foldl insertR []

/-- A row of `report_summaries` (lines 398-412). -/
structure SummaryRow where
  filename : List Char
  committee_name : List Char
  report_type : List Char
  period_from : List Char
  period_through : List Char
  file_date : Nat
  is_amendment : Bool
  money_on_hand_beginning : ℚ
  money_on_hand_ending : ℚ
  total_receipts_period : ℚ
  total_expenditures_period : ℚ
  monetary_receipts_period : ℚ
deriving DecidableEq

/-- A row of the `contributions` accumulator (lines 415-420). -/
structure ContributionRow where
  base : ContributionRecord
  filename : List Char
  report_period_from : List Char
  report_period_through : List Char
deriving DecidableEq

/-- A row of the `expenditures` accumulator (lines 423-432). -/
structure ExpenditureRow where
  base : ExpenditureRecord
  filename : List Char
  report_period_from : List Char
  report_period_through : List Char
deriving DecidableEq

/-- `summary_row` (lines 398-411): missing metrics default to `0.0`. -/
def summaryRowOf (rd : ReportData) : SummaryRow :=
  { filename := rd.filename
    committee_name := rd.committee_name
    report_type := rd.report_type
    period_from := rd.period_from
    period_through := rd.period_through
    file_date := rd.file_date
    is_amendment := rd.is_amendment
    money_on_hand_beginning := rd.summary.money_on_hand_beginning.getD 0
    money_on_hand_ending := rd.summary.money_on_hand_ending.getD 0
    total_receipts_period := rd.summary.total_receipts_period.getD 0
    total_expenditures_period := rd.summary.total_expenditures_period.getD 0
    monetary_receipts_period := rd.summary.monetary_receipts_period.getD 0 }

/-- Contribution rows of one report (lines 415-420). -/
def contribRowsOf (rd : ReportData) : List ContributionRow :=
  rd.contributions.map fun c =>
    { base := c
      filename := rd.filename
      report_period_from := rd.period_from
      report_period_through := rd.period_through }

/-- Expenditure rows of one report (lines 423-432), backfilling an empty
`date_paid` with the report's `period_from` (lines 430-431). -/
def expRowsOf (rd : ReportData) : List ExpenditureRow :=
  rd.expenditures.map fun e =>
    { base := if e.date_paid.isEmpty then { e with date_paid := rd.period_from } else e
      filename := rd.filename
      report_period_from := rd.period_from
      report_period_through := rd.period_through }

/-- The three accumulators at the end of a run. -/
structure RunOutputs where
  report_summaries : List SummaryRow
  contributions : List ContributionRow
  expenditures : List ExpenditureRow
deriving DecidableEq

/-- `extract_all_data` after the per-PDF parses (lines 26-46): deduplicate
by key, then run `process_report_data` over the retained values in
dictionary order. -/
def extract_all_data (rs : List ReportData) : RunOutputs :=
  let values := (allReports rs).map Prod.snd
  { report_summaries := values.map summaryRowOf
    contributions := values.flatMap contribRowsOf
    expenditures := values.flatMap expRowsOf }

/-!
### OutputSink (`create_csv_files`, `Extractor.py` lines 434-470)

An output is modelled by its file name, its header (the column list pandas
writes: the explicit column list of the empty-stream branches, or the
insertion order of the row-dictionary keys when rows exist) and its row
count.  When `report_summaries` is empty no file is written at all
(lines 438-441 have no else branch).
-/

structure OutputFile where
  name : String
  header : List String
  nrows : Nat
deriving DecidableEq

/-- Key order of `summary_row` (lines 398-411). -/
def summariesInferredCols : List String :=
  [("filename"), ("committee_name"), ("report_type"), ("period_from"),
   ("period_through"), ("file_date"), ("is_amendment"),
   ("money_on_hand_beginning"), ("money_on_hand_ending"),
   ("total_receipts_period"), ("total_expenditures_period"),
   ("monetary_receipts_period")]

/-- Key order of a contribution row dictionary (lines 266-275 then 417-419). -/
def contributionsInferredCols : List String :=
  [("contributor_name"), ("contributor_address"), ("date_received"),
   ("individual_amount"), ("aggregate_amount"), ("contribution_type"),
   ("employer"), ("occupation"), ("filename"), ("report_period_from"),
   ("report_period_through")]

/-- Explicit columns of the empty contributions file (lines 450-454). -/
def contributionsEmptyCols : List String :=
  [("filename"), ("contributor_name"), ("contributor_address"),
   ("date_received"), ("individual_amount"), ("aggregate_amount"),
   ("contribution_type"), ("employer"), ("occupation"),
   ("report_period_from"), ("report_period_through")]

/-- Key order of an expenditure row dictionary (lines 364-371 then 426-428). -/
def expendituresInferredCols : List String :=
  [("expense_category"), ("amount"), ("recipient_name"),
   ("recipient_address"), ("purpose"), ("date_paid"), ("filename"),
   ("report_period_from"), ("report_period_through")]

/-- Explicit columns of the empty expenditures file (lines 465-468). -/
def expendituresEmptyCols : List String :=
  [("filename"), ("expense_category"), ("amount"), ("recipient_name"),
   ("recipient_address"), ("purpose"), ("date_paid"),
   ("report_period_from"), ("report_period_through")]

/-- `create_csv_files` (lines 434-470). -/
def createCsvFiles (s : List SummaryRow) (c : List ContributionRow)
    (e : List ExpenditureRow) : List OutputFile :=
  (match s with
   | [] => []
   | _ => [⟨("FHF_report_summaries.csv"), summariesInferredCols, s.length⟩])
  ++ (match c with
      | [] => [⟨("FHF_contributions_received.csv"), contributionsEmptyCols, 0⟩]
      | _ => [⟨("FHF_contributions_received.csv"), contributionsInferredCols, c.length⟩])
  ++ (match e with
      | [] => [⟨("FHF_expenditures_made.csv"), expendituresEmptyCols, 0⟩]
      | _ => [⟨("FHF_expenditures_made.csv"), expendituresInferredCols, e.length⟩])

/-!
### Concrete inputs used by the counterexamples and witnesses
-/

/-- A contributions page: name header, street address, then a date line. -/
def exPageC : List Char :=
  ("John Smith\n123 Main St\n3/15/2025 $100.00").toList

/-- The record `parse_contributions_table` emits for `exPageC` (the amount
regex takes the leftmost digit run of the date line, here `3`). -/
def exPageCRec : ContributionRecord :=
  { contributor_name := ("John Smith").toList
    contributor_address := ("123 Main St").toList
    date_received := ("3/15/2025").toList
    individual_amount := 3
    aggregate_amount := 3
    contribution_type := ("Monetary").toList
    employer := []
    occupation := [] }

/-- An expenditures page whose window holds a date+amount line followed by a
purpose+amount line. -/
def exPageE : List Char :=
  ("Acme Services\n3/15/2025 100.00\nAdvertising 250.00").toList

/-- The date+amount window line of `exPageE`. -/
def exLineDate : List Char := ("3/15/2025 100.00").toList

/-- The purpose+amount window line of `exPageE`. -/
def exLinePurpose : List Char := ("Advertising 250.00").toList

/-- A page whose only date line parses its amount to zero while the
preceding raw line holds `$500.00`. -/
def exPageFb : List Char :=
  ("Acme Company\n$500.00\n0/1/2025").toList

/-- Summary figures for the deduplication examples. -/
def exSummary : SummaryFigures := {}

/-- A single contribution with amount 10, to tell reports apart. -/
def exContribA : ContributionRecord :=
  { contributor_name := ("Alice").toList
    contributor_address := []
    date_received := []
    individual_amount := 10
    aggregate_amount := 10
    contribution_type := ("Monetary").toList
    employer := []
    occupation := [] }

/-- A single contribution with amount 20. -/
def exContribB : ContributionRecord :=
  { exContribA with contributor_name := ("Bob").toList
                    individual_amount := 20
                    aggregate_amount := 20 }

/-- Quarterly report for Q1 2025 filed 2025-04-10. -/
def exRepEarly : ReportData :=
  { filename := ("early.pdf").toList
    committee_name := ("Francis Howell Families").toList
    report_type := ("Quarterly").toList
    period_from := ("01/01/2025").toList
    period_through := ("03/31/2025").toList
    file_date := 20250410
    is_amendment := false
    summary := exSummary
    contributions := [exContribA]
    expenditures := [] }

/-- Same identity, filed 2025-04-20. -/
def exRepLate : ReportData :=
  { exRepEarly with filename := ("late.pdf").toList
                    file_date := 20250420
                    is_amendment := true
                    contributions := [exContribB] }

/-- The shared identity key of `exRepEarly` and `exRepLate`. -/
def exQ1Key : RKey :=
  (("Quarterly").toList, ("01/01/2025").toList, ("03/31/2025").toList)

/-- Empty-period report of type `Unknown` filed first. -/
def exEmptyP1 : ReportData :=
  { exRepEarly with filename := ("p1.pdf").toList
                    report_type := ("Unknown").toList
                    period_from := []
                    period_through := []
                    file_date := 10
                    contributions := [exContribA] }

/-- Empty-period report of type `Unknown` filed later. -/
def exEmptyP2 : ReportData :=
  { exEmptyP1 with filename := ("p2.pdf").toList
                   file_date := 20
                   contributions := [exContribB] }

/-- Empty-period report of type `Quarterly`, for the distinct-type case. -/
def exEmptyQ : ReportData :=
  { exEmptyP1 with filename := ("q.pdf").toList
                   report_type := ("Quarterly").toList
                   file_date := 5 }

/-- A contributions window state that has already captured a date and an
amount of 100. -/
def exCStateAmt : CState :=
  { date := some (("1/1/2025").toList), amount := some (mkRat 100 1) }

/-- A later window line bearing both a new date and a new amount. -/
def exLineDate2 : List Char := ("$2.00 paid 2/2/2026").toList

/-- A contributions window state that has already captured a street
address. -/
def exCStateAddr : CState :=
  { address := some (("5 Oak Ave").toList) }

/-- An expenditures window state that has already captured an amount of 7. -/
def exEStateAmt : EState :=
  { amount := some (mkRat 7 1) }

/-- Invariant of the `all_reports` dictionary after processing the reports
`ps`: every entry is keyed by its value's identity, holds a processed report
maximal in `file_date` among the processed reports of its group, every
processed report's group is present, and keys are unique. -/
def GoodMap (ps : List ReportData) (m : List (RKey × ReportData)) : Prop :=
  (∀ kv ∈ m, keyOf kv.2 = kv.1 ∧ kv.2 ∈ ps ∧
      ∀ r ∈ ps, keyOf r = kv.1 → r.file_date ≤ kv.2.file_date)
  ∧ (∀ r ∈ ps, (lookupR m (keyOf r)).isSome = true)
  ∧ (m.map Prod.fst).Nodup

/-!
## Theorems
-/

/-- When the AMENDED/AMENDING check fires, the type cascade of lines 110-116
cannot reach its `Unknown` fallback. -/
theorem report_type_of_amendedHit (t : List Char) (h : amendedHit t = true) :
    report_type t = ("Quarterly").toList ∨
      report_type t = ("Quarterly (Amended)").toList := by
  cases hc : listContains (("COMMITTEE QUARTERLY REPORT").toList) t with
  | true =>
    left
    simp only [report_type]
    rw [if_pos hc]
  | false =>
    right
    simp only [report_type]
    rw [if_neg (ne_true_of_eq_false hc), if_pos h]

/-- C7 counterexample: no cover-page text yields `report_type = Unknown`
together with `is_amendment = True` — the very check that sets the flag is
the `elif` of the type cascade, so a true flag forces a non-Unknown type. -/
theorem unknown_amended_combination_impossible :
    (∃ t : List Char, report_type t = ("Unknown").toList ∧ is_amendment t = true)
      = False := by
  refine eq_false ?_
  rintro ⟨t, hu, ha⟩
  rcases report_type_of_amendedHit t ha with h | h
  · rw [hu] at h
    exact absurd h (by decide)
  · rw [hu] at h
    exact absurd h (by decide)

/-- C7 amended: the amendment flag mirrors the same AMENDED/AMENDING check
used by the type cascade, so `is_amendment = True` forces
`report_type ∈ {Quarterly, Quarterly (Amended)}`; the combination
`Unknown + is_amendment=True` is not producible. -/
theorem amendment_flag_forces_known_type (t : List Char)
    (h : is_amendment t = true) :
    report_type t = ("Quarterly").toList ∨
      report_type t = ("Quarterly (Amended)").toList :=
  report_type_of_amendedHit t h

/-- Witness for C7's amended theorem at the cover text `AMENDED`. -/
theorem amendment_flag_forces_known_type_witness :
    report_type (("AMENDED").toList) = ("Quarterly").toList ∨
      report_type (("AMENDED").toList) = ("Quarterly (Amended)").toList :=
  amendment_flag_forces_known_type (("AMENDED").toList) (by decide)

/-- C8: `parse_amount` strips commas and dollar signs, converts, and returns
`0.0` on any failure; on the spec's probes it yields 1234.56, 0, 0 and 1000. -/
theorem parse_amount_total_spec :
    parse_amount (("$1,234.56").toList) = 1234.56
  ∧ parse_amount (("").toList) = 0
  ∧ parse_amount (("abc").toList) = 0
  ∧ parse_amount (("1000").toList) = 1000
  ∧ ∀ l : List Char, parse_amount l =
      match floatOfStr (cleanAmount l) with
      | some q => q
      | none => 0 := by
  refine ⟨?_, by decide, by decide, ?_, ?_⟩
  · have h : parse_amount (("$1,234.56").toList) = mkRat 30864 25 := by decide
    rw [h, Rat.mkRat_eq_div]
    norm_num
  · have h : parse_amount (("1000").toList) = mkRat 1000 1 := by decide
    rw [h, Rat.mkRat_eq_div]
    norm_num
  · intro l
    by_cases h : l.isEmpty
    · cases l with
      | nil => decide
      | cons c cs => simp [List.isEmpty] at h
    · simp [parse_amount, h]

/-- C9 counterexample: the text `13/13/2025` contains a date-shaped
substring, yet the file date falls back to `datetime.now()` (the `now`
parameter) because `strptime` rejects month 13 — two runs at different
times disagree. -/
theorem file_date_now_fallback_on_invalid_date :
    (searchDateL (("13/13/2025").toList)).isSome = true
  ∧ parse_file_date (("13/13/2025").toList) 0 = 0
  ∧ parse_file_date (("13/13/2025").toList) 1 = 1
  ∧ (decide (parse_file_date (("13/13/2025").toList) 0
        = parse_file_date (("13/13/2025").toList) 1) : Bool) = false :=
  ⟨by decide, by decide, by decide, by decide⟩

/-- C9 amended: the file date is independent of the run time whenever the
first date-shaped substring of the cover text is a valid `%m/%d/%Y`
calendar date; the `now` fallback occurs when no date-shaped substring
exists or when the first one fails `strptime`. -/
theorem file_date_deterministic_on_valid_date (t g : List Char)
    (mdy : Nat × Nat × Nat) (h1 : searchDateL t = some g)
    (h2 : strptimeMDY g = some mdy) (n1 n2 : Nat) :
    parse_file_date t n1 = parse_file_date t n2 := by
  simp [parse_file_date, h1, h2]

/-- Witness for C9's amended theorem at the cover text `Filed 04/10/2025`. -/
theorem file_date_deterministic_on_valid_date_witness :
    parse_file_date (("Filed 04/10/2025").toList) 0
      = parse_file_date (("Filed 04/10/2025").toList) 99 :=
  file_date_deterministic_on_valid_date (("Filed 04/10/2025").toList)
    (("04/10/2025").toList) (4, 10, 2025) (by decide) (by decide) 0 99

/-- Unfolding of `lookupR` on a cons cell. -/
theorem lookupR_cons (kv : RKey × ReportData) (t : List (RKey × ReportData))
    (k : RKey) : lookupR (kv :: t) k = if kv.1 = k then some kv.2 else lookupR t k :=
  rfl

/-- C4 counterexample: two parsed reports whose periods are both empty and
whose report types coincide are merged by the deduplication of lines 36-38 —
only the later-filed one is retained and the earlier one contributes no
summary or contribution rows, contradicting the claim that empty-period
reports are never merged. -/
theorem empty_period_reports_merged_counterexample :
    allReports [exEmptyP1, exEmptyP2] = [(keyOf exEmptyP1, exEmptyP2)]
  ∧ (extract_all_data [exEmptyP1, exEmptyP2]).contributions = contribRowsOf exEmptyP2
  ∧ (extract_all_data [exEmptyP1, exEmptyP2]).report_summaries = [summaryRowOf exEmptyP2]
  ∧ exEmptyP1.period_from = [] ∧ exEmptyP1.period_through = []
  ∧ exEmptyP2.period_from = [] ∧ exEmptyP2.period_through = [] :=
  ⟨rfl, rfl, rfl, rfl, rfl, rfl, rfl⟩

/-- C4 amended: empty-period reports are deduplicated by their full key
`(report_type, '', '')` like any other reports — two such reports are kept
distinct exactly when their report types differ; with equal types the one
with the strictly larger `file_date` wins, the first-processed on ties. -/
theorem empty_period_dedup_by_type (r1 r2 : ReportData)
    (hp1 : r1.period_from = []) (hp2 : r1.period_through = [])
    (hp3 : r2.period_from = []) (hp4 : r2.period_through = []) :
    (r1.report_type ≠ r2.report_type →
        allReports [r1, r2] = [(keyOf r1, r1), (keyOf r2, r2)])
  ∧ (keyOf r1 = keyOf r2 → r1.file_date < r2.file_date →
        allReports [r1, r2] = [(keyOf r1, r2)])
  ∧ (keyOf r1 = keyOf r2 → ¬ r1.file_date < r2.file_date →
        allReports [r1, r2] = [(keyOf r1, r1)]) := by
  refine ⟨?_, ?_, ?_⟩
  · intro hne
    have hk : keyOf r1 ≠ keyOf r2 := fun hk => hne (congrArg (fun k => k.1) hk)
    have hl : lookupR [(keyOf r1, r1)] (keyOf r2) = none := by
      rw [lookupR_cons, if_neg hk]
      rfl
    show insertR [(keyOf r1, r1)] r2 = _
    unfold insertR
    rw [hl]
    rfl
  · intro hk hlt
    have hl : lookupR [(keyOf r1, r1)] (keyOf r2) = some r1 := by
      rw [lookupR_cons, if_pos hk]
    show insertR [(keyOf r1, r1)] r2 = _
    unfold insertR
    rw [hl]
    show (if r1.file_date < r2.file_date then updateR [(keyOf r1, r1)] (keyOf r2) r2
          else [(keyOf r1, r1)]) = [(keyOf r1, r2)]
    rw [if_pos hlt]
    show (if keyOf r1 = keyOf r2 then (keyOf r2, r2) :: ([] : List (RKey × ReportData))
          else (keyOf r1, r1) :: updateR [] (keyOf r2) r2) = [(keyOf r1, r2)]
    rw [if_pos hk, ← hk]
  · intro hk hnlt
    have hl : lookupR [(keyOf r1, r1)] (keyOf r2) = some r1 := by
      rw [lookupR_cons, if_pos hk]
    show insertR [(keyOf r1, r1)] r2 = _
    unfold insertR
    rw [hl]
    show (if r1.file_date < r2.file_date then updateR [(keyOf r1, r1)] (keyOf r2) r2
          else [(keyOf r1, r1)]) = [(keyOf r1, r1)]
    rw [if_neg hnlt]

/-- Witness for C4's amended theorem: empty-period reports of types
`Unknown` and `Quarterly` are both retained. -/
theorem empty_period_dedup_by_type_witness :
    allReports [exEmptyP1, exEmptyQ] =
      [(keyOf exEmptyP1, exEmptyP1), (keyOf exEmptyQ, exEmptyQ)] :=
  (empty_period_dedup_by_type exEmptyP1 exEmptyQ rfl rfl rfl rfl).1 (by decide)

/-- C6 counterexample: with all three streams empty, `create_csv_files`
writes only the two header-only line-item files; the report-summaries
stream yields no output at all (lines 438-441 have no empty branch). -/
theorem empty_summaries_output_missing :
    (createCsvFiles [] [] []).map OutputFile.name =
      [("FHF_contributions_received.csv"), ("FHF_expenditures_made.csv")]
  ∧ createCsvFiles [] [] [] =
      [⟨("FHF_contributions_received.csv"), contributionsEmptyCols, 0⟩,
       ⟨("FHF_expenditures_made.csv"), expendituresEmptyCols, 0⟩] :=
  ⟨rfl, rfl⟩

/-- C6 amended: the contributions and the expenditures streams always
produce exactly one output each, with their fixed explicit column header
when empty; the report-summaries stream produces an output only when it is
non-empty — an empty summaries stream yields a missing output, not a
header-only one. -/
theorem csv_streams_amended (s : List SummaryRow) (c : List ContributionRow)
    (e : List ExpenditureRow) :
    ((createCsvFiles s c e).filter
        (fun f => f.name == ("FHF_report_summaries.csv")) =
      (match s with
       | [] => []
       | _ => [⟨("FHF_report_summaries.csv"), summariesInferredCols, s.length⟩]))
  ∧ ((createCsvFiles s c e).filter
        (fun f => f.name == ("FHF_contributions_received.csv")) =
      [⟨("FHF_contributions_received.csv"),
        (match c with
         | [] => contributionsEmptyCols
         | _ => contributionsInferredCols), c.length⟩])
  ∧ ((createCsvFiles s c e).filter
        (fun f => f.name == ("FHF_expenditures_made.csv")) =
      [⟨("FHF_expenditures_made.csv"),
        (match e with
         | [] => expendituresEmptyCols
         | _ => expendituresInferredCols), e.length⟩]) := by
  cases s <;> cases c <;> cases e <;> exact ⟨rfl, rfl, rfl⟩

/-- The contributions cursor strictly increases at every outer iteration. -/
theorem contribNext_gt (lines : List (List Char)) (i : Nat) :
    i < contribNext lines i := by
  unfold contribNext
  split
  · exact Nat.lt_of_lt_of_le (Nat.lt_succ_self i) (Nat.le_max_left _ _)
  · exact Nat.lt_succ_self i

/-- The expenditures cursor strictly increases at every outer iteration. -/
theorem expNext_gt (lines : List (List Char)) (i : Nat) :
    i < expNext lines i := by
  unfold expNext
  split
  · exact Nat.lt_of_lt_of_le (Nat.lt_succ_self i) (Nat.le_max_left _ _)
  · exact Nat.lt_succ_self i

/-- Past the end of the line list, the contributions loop yields nothing. -/
theorem contribAux_out (lines : List (List Char)) (i : Nat)
    (hi : lines.length ≤ i) : ∀ f, contribAux lines f i = [] := by
  intro f
  cases f with
  | zero => rfl
  | succ g => simp [contribAux, Nat.not_lt.mpr hi]

/-- Past the end of the line list, the expenditures loop yields nothing. -/
theorem expAux_out (lines : List (List Char)) (i : Nat)
    (hi : lines.length ≤ i) : ∀ f, expAux lines f i = [] := by
  intro f
  cases f with
  | zero => rfl
  | succ g => simp [expAux, Nat.not_lt.mpr hi]

/-- One unfolding of the contributions loop inside the line list. -/
theorem contribAux_in (lines : List (List Char)) (f i : Nat)
    (hi : i < lines.length) :
    contribAux lines (f + 1) i =
      (if isCandidateC (trimL (lines.getD i [])) then
         (emitC (trimL (lines.getD i [])) (scanC lines i)).toList
       else [])
        ++ contribAux lines f (contribNext lines i) := by
  show (if i < lines.length then
          if isCandidateC (trimL (lines.getD i [])) then
            (emitC (trimL (lines.getD i [])) (scanC lines i)).toList
              ++ contribAux lines f (contribNext lines i)
          else contribAux lines f (contribNext lines i)
        else []) = _
  rw [if_pos hi]
  by_cases hc : isCandidateC (trimL (lines.getD i [])) = true
  · rw [if_pos hc, if_pos hc]
  · rw [if_neg hc, if_neg hc]
    exact (List.nil_append _).symm

/-- One unfolding of the expenditures loop inside the line list. -/
theorem expAux_in (lines : List (List Char)) (f i : Nat)
    (hi : i < lines.length) :
    expAux lines (f + 1) i =
      (if isCandidateE (trimL (lines.getD i [])) then
         (emitE (trimL (lines.getD i [])) (scanE lines i)).toList
       else [])
        ++ expAux lines f (expNext lines i) := by
  show (if i < lines.length then
          if isCandidateE (trimL (lines.getD i [])) then
            (emitE (trimL (lines.getD i [])) (scanE lines i)).toList
              ++ expAux lines f (expNext lines i)
          else expAux lines f (expNext lines i)
        else []) = _
  rw [if_pos hi]
  by_cases hc : isCandidateE (trimL (lines.getD i [])) = true
  · rw [if_pos hc, if_pos hc]
  · rw [if_neg hc, if_neg hc]
    exact (List.nil_append _).symm

/-- Any two fuels bounding the remaining line count give the same
contributions parse: the loop terminates by cursor progress. -/
theorem contribAux_congr (lines : List (List Char)) :
    ∀ f1 f2 i, lines.length - i ≤ f1 → lines.length - i ≤ f2 →
      contribAux lines f1 i = contribAux lines f2 i := by
  intro f1
  induction f1 with
  | zero =>
    intro f2 i h1 _
    have hi : lines.length ≤ i := Nat.sub_eq_zero_iff_le.mp (Nat.le_zero.mp h1)
    rw [contribAux_out lines i hi, contribAux_out lines i hi]
  | succ f ih =>
    intro f2 i h1 h2
    cases f2 with
    | zero =>
      have hi : lines.length ≤ i := Nat.sub_eq_zero_iff_le.mp (Nat.le_zero.mp h2)
      rw [contribAux_out lines i hi, contribAux_out lines i hi]
    | succ g =>
      by_cases hi : i < lines.length
      · have h3 := contribNext_gt lines i
        have hs1 : lines.length - contribNext lines i ≤ f := by omega
        have hs2 : lines.length - contribNext lines i ≤ g := by omega
        rw [contribAux_in lines f i hi, contribAux_in lines g i hi,
            ih g (contribNext lines i) hs1 hs2]
      · have hle := Nat.not_lt.mp hi
        rw [contribAux_out lines i hle, contribAux_out lines i hle]

/-- Any two fuels bounding the remaining line count give the same
expenditures parse. -/
theorem expAux_congr (lines : List (List Char)) :
    ∀ f1 f2 i, lines.length - i ≤ f1 → lines.length - i ≤ f2 →
      expAux lines f1 i = expAux lines f2 i := by
  intro f1
  induction f1 with
  | zero =>
    intro f2 i h1 _
    have hi : lines.length ≤ i := Nat.sub_eq_zero_iff_le.mp (Nat.le_zero.mp h1)
    rw [expAux_out lines i hi, expAux_out lines i hi]
  | succ f ih =>
    intro f2 i h1 h2
    cases f2 with
    | zero =>
      have hi : lines.length ≤ i := Nat.sub_eq_zero_iff_le.mp (Nat.le_zero.mp h2)
      rw [expAux_out lines i hi, expAux_out lines i hi]
    | succ g =>
      by_cases hi : i < lines.length
      · have h3 := expNext_gt lines i
        have hs1 : lines.length - expNext lines i ≤ f := by omega
        have hs2 : lines.length - expNext lines i ≤ g := by omega
        rw [expAux_in lines f i hi, expAux_in lines g i hi,
            ih g (expNext lines i) hs1 hs2]
      · have hle := Nat.not_lt.mp hi
        rw [expAux_out lines i hle, expAux_out lines i hle]

/-- C10: both table parsers terminate — each outer iteration strictly
increases the cursor (to `i+1` on a non-candidate line, and to the window
end `max (i+1) (min (i+10 or 15) len)` on a candidate), and consequently
the loop result is already stable at any fuel bounding the remaining line
count, in particular the `lines.length` used by the parsers. -/
theorem table_parsers_cursor_progress :
    (∀ (lines : List (List Char)) (i : Nat),
        i < contribNext lines i ∧ i < expNext lines i)
  ∧ (∀ (lines : List (List Char)) (i : Nat),
        isCandidateC (trimL (lines.getD i [])) = true →
          contribNext lines i = max (i + 1) (min (i + 10) lines.length))
  ∧ (∀ (lines : List (List Char)) (i : Nat),
        isCandidateC (trimL (lines.getD i [])) = false →
          contribNext lines i = i + 1)
  ∧ (∀ (lines : List (List Char)) (i : Nat),
        isCandidateE (trimL (lines.getD i [])) = true →
          expNext lines i = max (i + 1) (min (i + 15) lines.length))
  ∧ (∀ (lines : List (List Char)) (i : Nat),
        isCandidateE (trimL (lines.getD i [])) = false →
          expNext lines i = i + 1)
  ∧ (∀ (lines : List (List Char)) (f1 f2 i : Nat),
        lines.length - i ≤ f1 → lines.length - i ≤ f2 →
          contribAux lines f1 i = contribAux lines f2 i)
  ∧ (∀ (lines : List (List Char)) (f1 f2 i : Nat),
        lines.length - i ≤ f1 → lines.length - i ≤ f2 →
          expAux lines f1 i = expAux lines f2 i) := by
  refine ⟨fun lines i => ⟨contribNext_gt lines i, expNext_gt lines i⟩,
    ?_, ?_, ?_, ?_, contribAux_congr, expAux_congr⟩
  · intro lines i hc
    unfold contribNext
    rw [if_pos hc]
  · intro lines i hc
    unfold contribNext
    rw [if_neg (ne_true_of_eq_false hc)]
  · intro lines i hc
    unfold expNext
    rw [if_pos hc]
  · intro lines i hc
    unfold expNext
    rw [if_neg (ne_true_of_eq_false hc)]

/-- Witness for C10 at the concrete page `exPageC` (3 lines): the cursor
advances past each index, and any fuel of at least the 3 remaining lines
gives the same parse as the parsers' own fuel. -/
theorem table_parsers_cursor_progress_witness :
    (0 < contribNext (splitNl exPageC) 0 ∧ 0 < expNext (splitNl exPageC) 0)
  ∧ contribNext (splitNl exPageC) 0 = max 1 (min 10 (splitNl exPageC).length)
  ∧ contribAux (splitNl exPageC) 5 0 = contribAux (splitNl exPageC) 3 0
  ∧ expAux (splitNl exPageC) 7 0 = expAux (splitNl exPageC) 3 0 :=
  ⟨table_parsers_cursor_progress.1 (splitNl exPageC) 0,
   table_parsers_cursor_progress.2.1 (splitNl exPageC) 0 (by decide),
   table_parsers_cursor_progress.2.2.2.2.2.1 (splitNl exPageC) 5 3 0
     (by decide) (by decide),
   table_parsers_cursor_progress.2.2.2.2.2.2 (splitNl exPageC) 7 3 0
     (by decide) (by decide)⟩

/-- A contribution record is emitted only from a strictly positive captured
amount, which becomes its `individual_amount` (gate of lines 257-260). -/
theorem emitC_pos (name : List Char) (st : CState) (r : ContributionRecord)
    (h : emitC name st = some r) :
    ∃ q, st.amount = some q ∧ 0 < q ∧ r.individual_amount = q := by
  unfold emitC at h
  split at h
  · rename_i a ha
    split at h
    · rename_i hq
      cases h
      exact ⟨a, ha, hq, rfl⟩
    · cases h
  · cases h

/-- An expenditure record is emitted only from a strictly positive captured
amount, which becomes its `amount` (gate of lines 355-358). -/
theorem emitE_pos (vendor : List Char) (st : EState) (r : ExpenditureRecord)
    (h : emitE vendor st = some r) :
    ∃ q, st.amount = some q ∧ 0 < q ∧ r.amount = q := by
  unfold emitE at h
  split at h
  · rename_i a ha
    split at h
    · rename_i hq
      cases h
      exact ⟨a, ha, hq, rfl⟩
    · cases h
  · cases h

/-- Every record the contributions loop produces has a positive amount. -/
theorem contribAux_pos (lines : List (List Char)) :
    ∀ f i r, r ∈ contribAux lines f i → 0 < r.individual_amount := by
  intro f
  induction f with
  | zero =>
    intro i r h
    exact absurd h (List.not_mem_nil r)
  | succ f ih =>
    intro i r h
    by_cases hi : i < lines.length
    · rw [contribAux_in lines f i hi] at h
      rcases List.mem_append.mp h with h1 | h2
      · by_cases hc : isCandidateC (trimL (lines.getD i [])) = true
        · rw [if_pos hc] at h1
          cases he : emitC (trimL (lines.getD i [])) (scanC lines i) with
          | none =>
            rw [he] at h1
            exact absurd h1 (List.not_mem_nil r)
          | some rec0 =>
            rw [he] at h1
            have hr : r = rec0 := by
              simpa using h1
            obtain ⟨q, _, hq, hrq⟩ := emitC_pos _ _ _ he
            rw [hr, hrq]
            exact hq
        · rw [if_neg hc] at h1
          exact absurd h1 (List.not_mem_nil r)
      · exact ih _ _ h2
    · rw [contribAux_out lines i (Nat.not_lt.mp hi)] at h
      exact absurd h (List.not_mem_nil r)

/-- Every record the expenditures loop produces has a positive amount. -/
theorem expAux_pos (lines : List (List Char)) :
    ∀ f i r, r ∈ expAux lines f i → 0 < r.amount := by
  intro f
  induction f with
  | zero =>
    intro i r h
    exact absurd h (List.not_mem_nil r)
  | succ f ih =>
    intro i r h
    by_cases hi : i < lines.length
    · rw [expAux_in lines f i hi] at h
      rcases List.mem_append.mp h with h1 | h2
      · by_cases hc : isCandidateE (trimL (lines.getD i [])) = true
        · rw [if_pos hc] at h1
          cases he : emitE (trimL (lines.getD i [])) (scanE lines i) with
          | none =>
            rw [he] at h1
            exact absurd h1 (List.not_mem_nil r)
          | some rec0 =>
            rw [he] at h1
            have hr : r = rec0 := by
              simpa using h1
            obtain ⟨q, _, hq, hrq⟩ := emitE_pos _ _ _ he
            rw [hr, hrq]
            exact hq
        · rw [if_neg hc] at h1
          exact absurd h1 (List.not_mem_nil r)
      · exact ih _ _ h2
    · rw [expAux_out lines i (Nat.not_lt.mp hi)] at h
      exact absurd h (List.not_mem_nil r)

/-- C2: every `ContributionRecord`/`ExpenditureRecord` emitted by the table
parsers has a strictly positive amount, and a candidate whose window
captured no positive amount emits nothing — a record exists only when the
captured amount is positive, and it carries that amount. -/
theorem lineitem_positive_amount_gate (text : List Char) :
    (∀ r ∈ parse_contributions_table text, 0 < r.individual_amount)
  ∧ (∀ r ∈ parse_expenditures_table text, 0 < r.amount)
  ∧ (∀ (name : List Char) (st : CState) (r : ContributionRecord),
        emitC name st = some r →
          ∃ q, st.amount = some q ∧ 0 < q ∧ r.individual_amount = q)
  ∧ (∀ (vendor : List Char) (st : EState) (r : ExpenditureRecord),
        emitE vendor st = some r →
          ∃ q, st.amount = some q ∧ 0 < q ∧ r.amount = q) :=
  ⟨fun r h => contribAux_pos (splitNl text) (splitNl text).length 0 r h,
   fun r h => expAux_pos (splitNl text) (splitNl text).length 0 r h,
   emitC_pos, emitE_pos⟩

/-- Witness for C2: the record parsed from `exPageC` has positive amount. -/
theorem lineitem_positive_amount_gate_witness :
    (0 : ℚ) < exPageCRec.individual_amount :=
  (lineitem_positive_amount_gate exPageC).1 exPageCRec (by decide)

/-- A captured street address is never overwritten by a later window line
(guard `'address' not in contributor_data`, line 220-221). -/
theorem stepC_address_persist (st : CState) (raw p n : List Char)
    (a : List Char) (h : st.address = some a) :
    (stepC st raw p n).address = some a := by
  unfold stepC
  repeat' split
  all_goals try exact h
  all_goals simp_all

/-- A captured city/state/zip line is never overwritten (guard at 225-226). -/
theorem stepC_city_state_persist (st : CState) (raw p n : List Char)
    (a : List Char) (h : st.city_state = some a) :
    (stepC st raw p n).city_state = some a := by
  unfold stepC
  repeat' split
  all_goals try exact h
  all_goals simp_all

/-- A captured occupation is never overwritten (guard at line 230). -/
theorem stepC_occupation_persist (st : CState) (raw p n : List Char)
    (a : List Char) (h : st.occupation = some a) :
    (stepC st raw p n).occupation = some a := by
  unfold stepC
  repeat' split
  all_goals try exact h
  all_goals simp_all

/-- A captured street address is never overwritten in the expenditures scan
(guard at 325-326). -/
theorem stepE_address_persist (st : EState) (raw : List Char)
    (a : List Char) (h : st.address = some a) :
    (stepE st raw).address = some a := by
  unfold stepE
  repeat' split
  all_goals try exact h
  all_goals simp_all

/-- A captured city/state/zip line is never overwritten in the expenditures
scan (guard at 330-331). -/
theorem stepE_city_state_persist (st : EState) (raw : List Char)
    (a : List Char) (h : st.city_state = some a) :
    (stepE st raw).city_state = some a := by
  unfold stepE
  repeat' split
  all_goals try exact h
  all_goals simp_all

/-- In the expenditures scan, a line that matches no purpose+amount pattern
never overwrites a captured amount: the date branch seeks an amount only
when none is present (guard `'amount' not in expense_data`, line 348). -/
theorem stepE_amount_persist_no_purpose (st : EState) (raw : List Char)
    (q : ℚ) (h : st.amount = some q)
    (hp : purposeAmountMatch (trimL raw) = none) :
    (stepE st raw).amount = some q := by
  unfold stepE
  repeat' split
  all_goals try exact h
  all_goals simp_all

/-- C3 counterexample: in the expenditures window of `exPageE` the
date+amount line `3/15/2025 100.00` comes first and captures the amount
(the leftmost digit run, 3); the later purpose+amount line
`Advertising 250.00` then overwrites it (no guard at lines 335-339), and
the emitted record carries 250 — the first-captured amount did not win. -/
theorem field_capture_overwrite_counterexample :
    (stepE initE exLineDate).amount = some (mkRat 3 1)
  ∧ (stepE (stepE initE exLineDate) exLinePurpose).amount = some (mkRat 250 1)
  ∧ (parse_expenditures_table exPageE).map ExpenditureRecord.amount = [mkRat 250 1]
  ∧ (parse_expenditures_table exPageE).map ExpenditureRecord.date_paid
      = [("3/15/2025").toList] :=
  ⟨by decide, by decide, by decide, by decide⟩

/-- C3 amended: only the guarded fields are first-match-wins — street
address, city/state/zip and (for contributions) employer/occupation are
captured at most once and never overwritten; the date capture is unguarded
in both scans, the expenditures purpose+amount branch overwrites both
purpose and amount on every matching line, and only the expenditures date
branch checks for an already-captured amount — so an amount captured from a
date line is overwritten by a later purpose+amount line, and in the
contributions scan a later date-bearing line overwrites date and amount. -/
theorem guarded_fields_first_match_wins :
    (∀ (st : CState) (raw p n a : List Char), st.address = some a →
        (stepC st raw p n).address = some a)
  ∧ (∀ (st : CState) (raw p n a : List Char), st.city_state = some a →
        (stepC st raw p n).city_state = some a)
  ∧ (∀ (st : CState) (raw p n a : List Char), st.occupation = some a →
        (stepC st raw p n).occupation = some a)
  ∧ (∀ (st : EState) (raw a : List Char), st.address = some a →
        (stepE st raw).address = some a)
  ∧ (∀ (st : EState) (raw a : List Char), st.city_state = some a →
        (stepE st raw).city_state = some a)
  ∧ (∀ (st : EState) (raw : List Char) (q : ℚ), st.amount = some q →
        purposeAmountMatch (trimL raw) = none → (stepE st raw).amount = some q)
  ∧ (stepE (stepE initE exLineDate) exLinePurpose).amount
      = some (parse_amount (("250.00").toList))
  ∧ (stepC exCStateAmt exLineDate2 [] []).amount
      = some (parse_amount (("2.00").toList))
  ∧ (stepC exCStateAmt exLineDate2 [] []).date = some (("2/2/2026").toList) :=
  ⟨fun st raw p n a h => stepC_address_persist st raw p n a h,
   fun st raw p n a h => stepC_city_state_persist st raw p n a h,
   fun st raw p n a h => stepC_occupation_persist st raw p n a h,
   fun st raw a h => stepE_address_persist st raw a h,
   fun st raw a h => stepE_city_state_persist st raw a h,
   fun st raw q h hp => stepE_amount_persist_no_purpose st raw q h hp,
   by decide, by decide, by decide⟩

/-- Witness for C3's amended theorem: an already-captured address survives a
later address-shaped line, and an already-captured expenditure amount
survives a later date-only line. -/
theorem guarded_fields_first_match_wins_witness :
    (stepC exCStateAddr (("9 Elm St").toList) [] []).address
      = some (("5 Oak Ave").toList)
  ∧ (stepE exEStateAmt (("4/4/2024").toList)).amount = some (mkRat 7 1) :=
  ⟨guarded_fields_first_match_wins.1 exCStateAddr (("9 Elm St").toList) [] []
      (("5 Oak Ave").toList) rfl,
   guarded_fields_first_match_wins.2.2.2.2.2.1 exEStateAmt
      (("4/4/2024").toList) (mkRat 7 1) rfl (by decide)⟩

/-- A whitespace character is not a digit. -/
theorem isWsCh_of_digit (c : Char) (hd : c.isDigit = true) : isWsCh c = false := by
  cases hw : isWsCh c
  · rfl
  · exfalso
    unfold isWsCh at hw
    simp only [Bool.or_eq_true, decide_eq_true_eq] at hw
    rcases hw with ((((h | h) | h) | h) | h) | h <;> subst h <;>
      exact absurd hd (by decide)

/-- A date attempt can only succeed at a digit. -/
theorem tryDateAt_head_digit (l g : List Char) (h : tryDateAt l = some g) :
    ∃ c cs, l = c :: cs ∧ c.isDigit = true := by
  cases l with
  | nil => simp [tryDateAt, takeDigits12] at h
  | cons c cs =>
    refine ⟨c, cs, rfl, ?_⟩
    by_cases hd : c.isDigit = true
    · exact hd
    · exfalso
      have he : takeDigits12 (c :: cs) = [] := by
        cases cs with
        | nil => simp [takeDigits12, hd]
        | cons b bs => simp [takeDigits12, hd]
      unfold tryDateAt at h
      rw [he] at h
      simp at h

/-- The amount group succeeds on any list headed by a digit. -/
theorem tryNumGroup_digit (c : Char) (cs : List Char) (hd : c.isDigit = true) :
    (tryNumGroup (c :: cs)).isSome = true := by
  have hdc : isDigitComma c = true := by
    unfold isDigitComma
    rw [hd]
    rfl
  have ht : List.takeWhile isDigitComma (c :: cs)
      = c :: List.takeWhile isDigitComma cs := by
    simp [List.takeWhile, hdc]
  unfold tryNumGroup
  rw [ht]
  rw [if_neg (by simp)]
  split <;> rfl

/-- The dollar/whitespace-prefixed amount attempt succeeds on any list
headed by a digit. -/
theorem tryAmountAt_digit (c : Char) (cs : List Char) (hd : c.isDigit = true) :
    (tryAmountAt (c :: cs)).isSome = true := by
  have hc : ¬ c = '$' := by
    intro he
    subst he
    exact absurd hd (by decide)
  have hw : isWsCh c = false := isWsCh_of_digit c hd
  unfold tryAmountAt
  show (if c = '$' then tryNumGroup (List.dropWhile isWsCh cs)
        else tryNumGroup (List.dropWhile isWsCh (c :: cs))).isSome = true
  rw [if_neg hc]
  have hdw : List.dropWhile isWsCh (c :: cs) = c :: cs := by
    simp [List.dropWhile, hw]
  rw [hdw]
  exact tryNumGroup_digit c cs hd

/-- Wherever the date regex finds a match, the amount regex also finds one:
every date-bearing line yields a same-line amount group, so the
neighbouring-line fallback of lines 246-253 can never run. -/
theorem searchAmount_of_searchDate (l : List Char) :
    ∀ g, searchDateL l = some g → (searchAmountL l).isSome = true := by
  induction l with
  | nil =>
    intro g h
    simp [searchDateL] at h
  | cons c cs ih =>
    intro g h
    unfold searchDateL at h
    unfold searchAmountL
    cases hd : tryDateAt (c :: cs) with
    | some g2 =>
      obtain ⟨c2, cs2, he, hdig⟩ := tryDateAt_head_digit _ _ hd
      have hdig2 : c.isDigit = true := by
        injection he with h1 h2
        rw [h1]
        exact hdig
      have ha := tryAmountAt_digit c cs hdig2
      cases hx : tryAmountAt (c :: cs) with
      | some g3 => simp
      | none =>
        rw [hx] at ha
        cases ha
    | none =>
      rw [hd] at h
      simp only [Option.none_orElse] at h
      have hs := ih g h
      cases hx : tryAmountAt (c :: cs) with
      | some g3 => simp
      | none => simp [hs]

/-- The contributions window step never depends on the neighbouring raw
lines: the fallback that would read them is dead code. -/
theorem stepC_neighbor_free (st : CState) (raw p n p2 n2 : List Char) :
    stepC st raw p n = stepC st raw p2 n2 := by
  unfold stepC
  by_cases h1 : (addressPat (trimL raw) && decide (st.address = none)) = true
  · rw [if_pos h1, if_pos h1]
  · rw [if_neg h1, if_neg h1]
    by_cases h2 : (cszPat (trimL raw) && decide (st.city_state = none)) = true
    · rw [if_pos h2, if_pos h2]
    · rw [if_neg h2, if_neg h2]
      by_cases h3 : (listContains sepEmpOcc (trimL raw)
          && decide (st.occupation = none)) = true
      · rw [if_pos h3, if_pos h3]
      · rw [if_neg h3, if_neg h3]
        cases hdt : searchDateL (trimL raw) with
        | none => rfl
        | some d =>
          cases hg : searchAmountL (trimL raw) with
          | some g => rfl
          | none =>
            exfalso
            have := searchAmount_of_searchDate (trimL raw) d hdt
            rw [hg] at this
            cases this

/-- C5 counterexample: on `exPageFb` the window's only date line is
`0/1/2025`, whose same-line amount group is `0` (parsing to zero), while
the immediately preceding raw line holds the positive amount `$500.00`;
the claimed fallback would take 500 and emit a record, but both parsers
emit nothing — the contributions fallback is unreachable (the same-line
regex always matches on a date line) and the expenditures parser has no
fallback at all. -/
theorem amount_fallback_counterexample :
    parse_contributions_table exPageFb = []
  ∧ parse_expenditures_table exPageFb = []
  ∧ searchDateL (("0/1/2025").toList) = some (("0/1/2025").toList)
  ∧ searchAmountL (("0/1/2025").toList) = some (("0").toList)
  ∧ searchAmountEL (("0/1/2025").toList) = some (("0").toList)
  ∧ parse_amount (("0").toList) = 0
  ∧ 0 < parse_amount (("$500.00").toList) :=
  ⟨by decide, by decide, by decide, by decide, by decide, by decide, by decide⟩

/-- C5 amended: the neighbouring-line fallback exists only in the
contributions specialization, and there it is unreachable — the same-line
amount regex matches on every date-bearing line (the date supplies a
digit), so the captured amount is always the same line's leftmost amount
group and the contributions window step is independent of the neighbouring
raw lines; the expenditures specialization never examines them. -/
theorem amount_fallback_amended :
    (∀ l g : List Char, searchDateL l = some g →
        (searchAmountL l).isSome = true)
  ∧ (∀ (st : CState) (raw p n p2 n2 : List Char),
        stepC st raw p n = stepC st raw p2 n2)
  ∧ parse_contributions_table exPageFb = []
  ∧ parse_expenditures_table exPageFb = [] :=
  ⟨fun l g h => searchAmount_of_searchDate l g h,
   fun st raw p n p2 n2 => stepC_neighbor_free st raw p n p2 n2,
   by decide, by decide⟩

/-- Witness for C5's amended theorem: a date line has a same-line amount
match, and the contributions step gives the same state under different
neighbouring lines. -/
theorem amount_fallback_amended_witness :
    (searchAmountL (("3/15/2025").toList)).isSome = true
  ∧ stepC initC (("3/15/2025").toList) (("$500.00").toList) []
      = stepC initC (("3/15/2025").toList) [] (("$9.99").toList) :=
  ⟨amount_fallback_amended.1 (("3/15/2025").toList) (("3/15/2025").toList)
      (by decide),
   amount_fallback_amended.2.1 initC (("3/15/2025").toList)
      (("$500.00").toList) [] [] (("$9.99").toList)⟩

/-- Lookup distributes over append, preferring the first occurrence. -/
theorem lookupR_append (m1 m2 : List (RKey × ReportData)) (k : RKey) :
    lookupR (m1 ++ m2) k =
      match lookupR m1 k with
      | some v => some v
      | none => lookupR m2 k := by
  induction m1 with
  | nil => rfl
  | cons kv t ih =>
    show lookupR (kv :: (t ++ m2)) k = _
    rw [lookupR_cons, lookupR_cons]
    by_cases h : kv.1 = k
    · rw [if_pos h, if_pos h]
    · rw [if_neg h, if_neg h, ih]

/-- A successful lookup locates an entry of the list. -/
theorem lookupR_mem (m : List (RKey × ReportData)) (k : RKey) (v : ReportData)
    (h : lookupR m k = some v) : (k, v) ∈ m := by
  induction m with
  | nil => simp [lookupR] at h
  | cons kv t ih =>
    rw [lookupR_cons] at h
    by_cases hk : kv.1 = k
    · rw [if_pos hk] at h
      injection h with h2
      refine List.mem_cons.mpr (Or.inl ?_)
      rw [← hk, ← h2]
    · rw [if_neg hk] at h
      exact List.mem_cons_of_mem kv (ih h)

/-- A lookup fails exactly when the key is absent. -/
theorem lookupR_eq_none (m : List (RKey × ReportData)) (k : RKey) :
    lookupR m k = none ↔ k ∉ m.map Prod.fst := by
  induction m with
  | nil => simp [lookupR]
  | cons kv t ih =>
    rw [lookupR_cons, List.map_cons]
    by_cases hk : kv.1 = k
    · rw [if_pos hk]
      constructor
      · intro h
        cases h
      · intro h
        exfalso
        apply h
        rw [← hk]
        exact List.mem_cons_self _ _
    · rw [if_neg hk, ih]
      constructor
      · intro h hmem
        rcases List.mem_cons.mp hmem with h1 | h2
        · exact hk h1.symm
        · exact h h2
      · intro h hmem
        exact h (List.mem_cons_of_mem _ hmem)

/-- With unique keys, every entry is found by its own key. -/
theorem lookupR_of_mem_nodup (m : List (RKey × ReportData))
    (hnd : (m.map Prod.fst).Nodup) (kv : RKey × ReportData) (h : kv ∈ m) :
    lookupR m kv.1 = some kv.2 := by
  induction m with
  | nil => cases h
  | cons e t ih =>
    rw [List.map_cons] at hnd
    rcases List.mem_cons.mp h with he | ht
    · subst he
      rw [lookupR_cons, if_pos rfl]
    · rw [lookupR_cons]
      have hne : ¬ e.1 = kv.1 := by
        intro hx
        have hm : kv.1 ∈ t.map Prod.fst := List.mem_map_of_mem Prod.fst ht
        rw [← hx] at hm
        exact (List.nodup_cons.mp hnd).1 hm
      rw [if_neg hne]
      exact ih (List.nodup_cons.mp hnd).2 ht

/-- Updating a key in place keeps the key list. -/
theorem updateR_map_fst (m : List (RKey × ReportData)) (k : RKey)
    (rd : ReportData) : (updateR m k rd).map Prod.fst = m.map Prod.fst := by
  induction m with
  | nil => rfl
  | cons e t ih =>
    show (if e.1 = k then (k, rd) :: t else e :: updateR t k rd).map Prod.fst = _
    by_cases h : e.1 = k
    · rw [if_pos h]
      simp [h]
    · rw [if_neg h]
      simp [ih]

/-- With unique keys, an entry of the updated list is either an untouched
entry of a different key or the replacement. -/
theorem mem_updateR_nodup (m : List (RKey × ReportData))
    (hnd : (m.map Prod.fst).Nodup) (k : RKey) (rd : ReportData)
    (kv : RKey × ReportData) (h : kv ∈ updateR m k rd) :
    (kv ∈ m ∧ kv.1 ≠ k) ∨ kv = (k, rd) := by
  induction m with
  | nil => cases h
  | cons e t ih =>
    rw [List.map_cons] at hnd
    rw [show updateR (e :: t) k rd
        = if e.1 = k then (k, rd) :: t else e :: updateR t k rd from rfl] at h
    by_cases he : e.1 = k
    · rw [if_pos he] at h
      rcases List.mem_cons.mp h with h1 | h2
      · right
        exact h1
      · left
        refine ⟨List.mem_cons_of_mem e h2, ?_⟩
        intro hx
        have hm : kv.1 ∈ t.map Prod.fst := List.mem_map_of_mem Prod.fst h2
        rw [hx, ← he] at hm
        exact (List.nodup_cons.mp hnd).1 hm
    · rw [if_neg he] at h
      rcases List.mem_cons.mp h with h1 | h2
      · left
        subst h1
        exact ⟨List.mem_cons_self _ _, fun hx => he hx⟩
      · rcases ih (List.nodup_cons.mp hnd).2 h2 with ⟨hm, hne⟩ | heq
        · left
          exact ⟨List.mem_cons_of_mem e hm, hne⟩
        · right
          exact heq

/-- Updating a present key makes its lookup return the replacement. -/
theorem lookupR_updateR_self (m : List (RKey × ReportData)) (k : RKey)
    (rd : ReportData) (h : (lookupR m k).isSome = true) :
    lookupR (updateR m k rd) k = some rd := by
  induction m with
  | nil => simp [lookupR] at h
  | cons e t ih =>
    show lookupR (if e.1 = k then (k, rd) :: t else e :: updateR t k rd) k = some rd
    by_cases he : e.1 = k
    · rw [if_pos he, lookupR_cons, if_pos rfl]
    · rw [if_neg he, lookupR_cons, if_neg he]
      apply ih
      rw [lookupR_cons, if_neg he] at h
      exact h

/-- Updating one key leaves other lookups unchanged. -/
theorem lookupR_updateR_other (m : List (RKey × ReportData)) (k : RKey)
    (rd : ReportData) (k2 : RKey) (h : ¬ k2 = k) :
    lookupR (updateR m k rd) k2 = lookupR m k2 := by
  induction m with
  | nil => rfl
  | cons e t ih =>
    show lookupR (if e.1 = k then (k, rd) :: t else e :: updateR t k rd) k2 = _
    by_cases he : e.1 = k
    · rw [if_pos he, lookupR_cons, lookupR_cons]
      have h1 : ¬ k = k2 := fun hx => h hx.symm
      rw [if_neg h1, if_neg (show ¬ e.1 = k2 from by rw [he]; exact h1)]
    · rw [if_neg he, lookupR_cons, lookupR_cons]
      by_cases h2 : e.1 = k2
      · rw [if_pos h2, if_pos h2]
      · rw [if_neg h2, if_neg h2, ih]

/-- One `all_reports` assignment step preserves the dictionary invariant:
after considering one more report, every retained entry is still maximal in
`file_date` within its group over all reports considered so far. -/
theorem goodMap_insert (ps : List ReportData) (m : List (RKey × ReportData))
    (rd : ReportData) (h : GoodMap ps m) :
    GoodMap (ps ++ [rd]) (insertR m rd) := by
  obtain ⟨h1, h2, h3⟩ := h
  unfold insertR
  cases hl : lookupR m (keyOf rd) with
  | none =>
    refine ⟨?_, ?_, ?_⟩
    · intro kv hkv
      rcases List.mem_append.mp hkv with hm | hnew
      · obtain ⟨hk, hmem, hmax⟩ := h1 kv hm
        refine ⟨hk, List.mem_append_left _ hmem, ?_⟩
        intro r hr hkey
        rcases List.mem_append.mp hr with hrp | hrnew
        · exact hmax r hrp hkey
        · have hreq : r = rd := by simpa using hrnew
          subst hreq
          exfalso
          have hx := lookupR_of_mem_nodup m h3 kv hm
          rw [← hkey] at hx
          rw [hl] at hx
          cases hx
      · have hkv2 : kv = (keyOf rd, rd) := by simpa using hnew
        subst hkv2
        refine ⟨rfl, List.mem_append_right _ (by simp), ?_⟩
        intro r hr hkey
        rcases List.mem_append.mp hr with hrp | hrnew
        · exfalso
          have hx := h2 r hrp
          have hky : keyOf r = keyOf rd := hkey
          rw [hky, hl] at hx
          cases hx
        · have hreq : r = rd := by simpa using hrnew
          subst hreq
          exact Nat.le_refl _
    · intro r hr
      rcases List.mem_append.mp hr with hrp | hrnew
      · have hx := h2 r hrp
        rw [lookupR_append]
        cases hy : lookupR m (keyOf r) with
        | some v => rfl
        | none =>
          rw [hy] at hx
          cases hx
      · have hreq : r = rd := by simpa using hrnew
        rw [hreq, lookupR_append, hl]
        show (lookupR [(keyOf rd, rd)] (keyOf rd)).isSome = true
        rw [lookupR_cons, if_pos rfl]
        rfl
    · rw [List.map_append]
      refine List.Nodup.append h3 (List.nodup_singleton _) ?_
      intro a ha hb
      have hab : a = keyOf rd := by simpa using hb
      subst hab
      exact (lookupR_eq_none m (keyOf rd)).mp hl ha
  | some old =>
    show GoodMap (ps ++ [rd])
      (if old.file_date < rd.file_date then updateR m (keyOf rd) rd else m)
    by_cases hlt : old.file_date < rd.file_date
    · rw [if_pos hlt]
      have hold_mem : (keyOf rd, old) ∈ m := lookupR_mem m _ old hl
      obtain ⟨holdk, holdmem, holdmax⟩ := h1 _ hold_mem
      refine ⟨?_, ?_, ?_⟩
      · intro kv hkv
        rcases mem_updateR_nodup m h3 (keyOf rd) rd kv hkv with ⟨hm, hne⟩ | heq
        · obtain ⟨hk, hmem, hmax⟩ := h1 kv hm
          refine ⟨hk, List.mem_append_left _ hmem, ?_⟩
          intro r hr hkey
          rcases List.mem_append.mp hr with hrp | hrnew
          · exact hmax r hrp hkey
          · have hreq : r = rd := by simpa using hrnew
            subst hreq
            exact absurd hkey (fun hx => hne hx.symm)
        · subst heq
          refine ⟨rfl, List.mem_append_right _ (by simp), ?_⟩
          intro r hr hkey
          rcases List.mem_append.mp hr with hrp | hrnew
          · exact Nat.le_trans (holdmax r hrp hkey) (Nat.le_of_lt hlt)
          · have hreq : r = rd := by simpa using hrnew
            subst hreq
            exact Nat.le_refl _
      · intro r hr
        rcases List.mem_append.mp hr with hrp | hrnew
        · by_cases hk : keyOf r = keyOf rd
          · rw [hk, lookupR_updateR_self m _ rd (by rw [hl]; rfl)]
            rfl
          · rw [lookupR_updateR_other m _ rd _ hk]
            exact h2 r hrp
        · have hreq : r = rd := by simpa using hrnew
          rw [hreq, lookupR_updateR_self m _ rd (by rw [hl]; rfl)]
          rfl
      · rw [updateR_map_fst]
        exact h3
    · rw [if_neg hlt]
      refine ⟨?_, ?_, h3⟩
      · intro kv hkv
        obtain ⟨hk, hmem, hmax⟩ := h1 kv hkv
        refine ⟨hk, List.mem_append_left _ hmem, ?_⟩
        intro r hr hkey
        rcases List.mem_append.mp hr with hrp | hrnew
        · exact hmax r hrp hkey
        · have hreq : r = rd := by simpa using hrnew
          subst hreq
          have hx := lookupR_of_mem_nodup m h3 kv hkv
          rw [← hkey] at hx
          have hxy : some old = some kv.2 := by rw [← hl, hx]
          injection hxy with hxy2
          rw [← hxy2]
          exact Nat.le_of_not_lt hlt
      · intro r hr
        rcases List.mem_append.mp hr with hrp | hrnew
        · exact h2 r hrp
        · have hreq : r = rd := by simpa using hrnew
          rw [hreq, hl]
          rfl

/-- Folding the assignment step over any report list preserves the
invariant. -/
theorem goodMap_fold (rs : List ReportData) :
    ∀ (ps : List ReportData) (m : List (RKey × ReportData)),
      GoodMap ps m → GoodMap (ps ++ rs) (rs.foldl insertR m) := by
  induction rs with
  | nil =>
    intro ps m h
    simpa using h
  | cons r t ih =>
    intro ps m h
    have hstep := goodMap_insert ps m r h
    have hrec := ih (ps ++ [r]) (insertR m r) hstep
    simpa [List.append_assoc] using hrec

/-- The `all_reports` dictionary of a whole run satisfies the invariant. -/
theorem goodMap_allReports (rs : List ReportData) :
    GoodMap rs (allReports rs) := by
  have h := goodMap_fold rs [] []
    ⟨fun kv hkv => absurd hkv (List.not_mem_nil kv),
     fun r hr => absurd hr (List.not_mem_nil r), List.nodup_nil⟩
  simpa using h

/-- C1: amendment deduplication retains, for every identity key, a report of
the run whose `file_date` is maximal within its group, every parsed report's
group is represented, and every summary, contribution and expenditure row of
the final output comes from a retained (deduplication-winning) report — so a
superseded report contributes no records at all. -/
theorem extract_all_data_latest_amendment_wins (rs : List ReportData) :
    (∀ (k : RKey) (v : ReportData), lookupR (allReports rs) k = some v →
        v ∈ rs ∧ keyOf v = k ∧ ∀ r ∈ rs, keyOf r = k →
          r.file_date ≤ v.file_date)
  ∧ (∀ r ∈ rs, (lookupR (allReports rs) (keyOf r)).isSome = true)
  ∧ (∀ row ∈ (extract_all_data rs).contributions, ∃ w,
        lookupR (allReports rs) (keyOf w) = some w ∧ row ∈ contribRowsOf w)
  ∧ (∀ row ∈ (extract_all_data rs).expenditures, ∃ w,
        lookupR (allReports rs) (keyOf w) = some w ∧ row ∈ expRowsOf w)
  ∧ (∀ row ∈ (extract_all_data rs).report_summaries, ∃ w,
        lookupR (allReports rs) (keyOf w) = some w ∧ row = summaryRowOf w) := by
  obtain ⟨h1, h2, h3⟩ := goodMap_allReports rs
  refine ⟨?_, h2, ?_, ?_, ?_⟩
  · intro k v hl
    have hm := lookupR_mem _ _ _ hl
    obtain ⟨hk, hmem, hmax⟩ := h1 (k, v) hm
    exact ⟨hmem, hk, hmax⟩
  · intro row hrow
    rcases List.mem_flatMap.mp hrow with ⟨w, hw, hrw⟩
    rcases List.mem_map.mp hw with ⟨kv, hkv, hkveq⟩
    subst hkveq
    have hlook := lookupR_of_mem_nodup _ h3 kv hkv
    have hk := (h1 kv hkv).1
    refine ⟨kv.2, ?_, hrw⟩
    rw [hk]
    exact hlook
  · intro row hrow
    rcases List.mem_flatMap.mp hrow with ⟨w, hw, hrw⟩
    rcases List.mem_map.mp hw with ⟨kv, hkv, hkveq⟩
    subst hkveq
    have hlook := lookupR_of_mem_nodup _ h3 kv hkv
    have hk := (h1 kv hkv).1
    refine ⟨kv.2, ?_, hrw⟩
    rw [hk]
    exact hlook
  · intro row hrow
    rcases List.mem_map.mp hrow with ⟨w, hw, hweq⟩
    rcases List.mem_map.mp hw with ⟨kv, hkv, hkveq⟩
    subst hkveq
    have hlook := lookupR_of_mem_nodup _ h3 kv hkv
    have hk := (h1 kv hkv).1
    refine ⟨kv.2, ?_, hweq.symm⟩
    rw [hk]
    exact hlook

/-- Witness for C1 at the spec's concrete pair: two `Quarterly` reports for
the period 01/01/2025-03/31/2025 filed 2025-04-10 and 2025-04-20 — the
later one is the retained maximal report, and the run's output rows all
come from it. -/
theorem extract_all_data_latest_amendment_wins_witness :
    (exRepLate ∈ [exRepEarly, exRepLate] ∧ keyOf exRepLate = exQ1Key
      ∧ ∀ r ∈ [exRepEarly, exRepLate], keyOf r = exQ1Key →
          r.file_date ≤ exRepLate.file_date)
  ∧ (extract_all_data [exRepEarly, exRepLate]).contributions
      = contribRowsOf exRepLate
  ∧ (extract_all_data [exRepEarly, exRepLate]).report_summaries
      = [summaryRowOf exRepLate] :=
  ⟨(extract_all_data_latest_amendment_wins [exRepEarly, exRepLate]).1 exQ1Key
      exRepLate (by decide),
   by decide, by decide⟩

/-- Witness for C6's amended theorem at the all-empty run. -/
theorem csv_streams_amended_witness :
    ((createCsvFiles [] [] []).filter
        (fun f => f.name == ("FHF_report_summaries.csv")) = [])
  ∧ ((createCsvFiles [] [] []).filter
        (fun f => f.name == ("FHF_contributions_received.csv")) =
      [⟨("FHF_contributions_received.csv"), contributionsEmptyCols, 0⟩])
  ∧ ((createCsvFiles [] [] []).filter
        (fun f => f.name == ("FHF_expenditures_made.csv")) =
      [⟨("FHF_expenditures_made.csv"), expendituresEmptyCols, 0⟩]) :=
  csv_streams_amended [] [] []

/-- Witness for C8 at the probe `abc`. -/
theorem parse_amount_total_spec_witness :
    parse_amount (("abc").toList) = 0 :=
  parse_amount_total_spec.2.2.1
